import Mathlib

/-!
Verification development for the eVIL-UART-VCU-Port-Map repository.

The embedding models the two scripts that carry the logic:
  * UARTVCUPortMap.py — discovery of the six logical UART channels
    (HPA, HIA, HIB, LPA, SGA, JUMPERS) from a list of serial ports,
    via regex patterns over USB location strings;
  * testPortmap.py — per-channel verification of the produced map by
    probing each mapped serial device and classifying the response.

Machine-level concerns (the actual pyserial transport, process spawning,
JSON printing) are modelled as explicit parameters: a transport is a
function from the written byte string to an optional response string
(the Python None, returned by the except-branch on SerialException, is
modelled as Option.none), and the host platform flag PLATFORM_WINDOWS
is passed as a Bool parameter.
-/

/-! ### A model of the Python regex fragment used by the scripts

Every pattern the scripts feed to re.match / re.search is built from
literal characters, the escape sequence backslash-dot (a literal dot),
the wildcard dot, and the two-character sequence dot-star ("any run of
characters").  The model first splits the pattern at unescaped top-level
vertical bars (alternation, which the Python engine applies at the
lowest precedence — this is reachable because hub identifiers extracted
from location strings are interpolated verbatim into the patterns), then
parses each alternative into tokens and matches them anchored at the
start of the subject but unanchored at the end, exactly as the Python
re.match does; re.search is re.match with a leading dot-star per
alternative.  (Patterns whose hub substring contains regex
metacharacters other than dot, backslash, star and bar — grouping,
repetition, classes — are outside the model, as they are outside the
intended inputs of the scripts.) -/

inductive RTok where
  | dot
  | star
  | lit (c : Char)
deriving DecidableEq

def parseRegex : List Char → List RTok
  | [] => []
  | ['\\'] => [RTok.lit '\\']
  | '\\' :: d :: rest => RTok.lit d :: parseRegex rest
  | '.' :: '*' :: rest => RTok.star :: parseRegex rest
  | '.' :: t => RTok.dot :: parseRegex t
  | c :: rest => RTok.lit c :: parseRegex rest

/-- Does f accept some suffix of the subject?  (Backtracking search used
by the dot-star token.) -/
def anySuffix (f : List Char → Bool) : List Char → Bool
  | [] => f []
  | c :: cs => f (c :: cs) || anySuffix f cs

/-- Token-list matching, anchored at the start of the subject and free at
the end, as the Python re.match is. -/
def toksMatch : List RTok → List Char → Bool
  | [], _ => true
  | RTok.star :: ts, cs => anySuffix (fun t => toksMatch ts t) cs
  | RTok.dot :: ts, cs =>
    match cs with
    | [] => false
    | _ :: cs2 => toksMatch ts cs2
  | RTok.lit a :: ts, cs =>
    match cs with
    | [] => false
    | c :: cs2 => a == c && toksMatch ts cs2

/-- Top-level alternation: split the pattern at every unescaped vertical
bar, as the Python regex engine does at the outermost level (the bar has
the lowest precedence; an escaped bar stays inside its alternative).
This matters because hub identifiers are arbitrary prefixes of location
strings and get interpolated into the patterns verbatim, so a bar in a
hub makes re.match try each alternative independently. -/
def splitAlt : List Char → List (List Char)
  | [] => [[]]
  | ['\\'] => [['\\']]
  | '\\' :: d :: rest =>
    match splitAlt rest with
    | [] => [['\\', d]]
    | a :: as => ('\\' :: d :: a) :: as
  | '|' :: rest => [] :: splitAlt rest
  | c :: rest =>
    match splitAlt rest with
    | [] => [[c]]
    | a :: as => (c :: a) :: as

/-- Model of `re.match(pat, s) is not None`: some top-level alternative
matches at the start of the subject. -/
def pyReMatch (pat s : String) : Bool :=
  (splitAlt pat.data).any (fun alt => toksMatch (parseRegex alt) s.data)

/-- Model of `re.search(pat, s) is not None`: some top-level alternative
matches starting anywhere in the subject. -/
def pySearch (pat s : String) : Bool :=
  (splitAlt pat.data).any (fun alt => toksMatch (RTok.star :: parseRegex alt) s.data)

/-- Substring containment on character lists (used to state what the
unanchored regexes actually test, and to model the Python test `x in y`). -/
def containsChars (needle : List Char) (hay : List Char) : Bool :=
  anySuffix (fun t => needle.isPrefixOf t) hay

/-- Model of the Python substring test `needle in hay` on str. -/
def containsSubstrStr (needle hay : String) : Bool :=
  containsChars needle.data hay.data

/-! ### Data model of UARTVCUPortMap.py -/

/-- The fields of a pyserial ListPortInfo that the script reads: the
device path, the USB location string (None when absent), and the
vendor/product ids. -/
structure ListPortInfo where
  device : String
  location : Option String
  vid : Nat
  pid : Nat
deriving DecidableEq

/-- Python f-string rendering of an Optional[str]: None prints as "None". -/
def pyStrOpt : Option String → String
  | some s => s
  | none => "None"

/-- Python truthiness of an Optional[str]: None and "" are falsy. -/
def truthyOpt : Option String → Bool
  | some s => !s.data.isEmpty
  | none => false

/-- Model of location.split(":")[0]: the prefix of the location before the first
colon (the whole string when no colon occurs). -/
def takeUntilColon : List Char → List Char
  | [] => []
  | c :: cs => if c = ':' then [] else c :: takeUntilColon cs

def majorOf (s : String) : String := String.mk (takeUntilColon s.data)

/-- The major numbers of the ports whose location field is truthy, in
port order, possibly with repetitions. -/
def collectMajors : List ListPortInfo → List String
  | [] => []
  | p :: rest =>
    match p.location with
    | some s => if s.data.isEmpty then collectMajors rest else majorOf s :: collectMajors rest
    | none => collectMajors rest

/-- Removes duplicates (the Python code goes through a set; since the
result is sorted afterwards only the underlying set matters). -/
def dedupStr : List String → List String
  | [] => []
  | x :: xs => if xs.contains x then dedupStr xs else x :: dedupStr xs

/-- Lexicographic comparison of strings by code point, as the Python `<` on str. -/
def charListLt : List Char → List Char → Bool
  | [], [] => false
  | [], _ :: _ => true
  | _ :: _, [] => false
  | a :: as, b :: bs => a < b || (a == b && charListLt as bs)

def strLt (a b : String) : Bool := charListLt a.data b.data

def insertStr (x : String) : List String → List String
  | [] => [x]
  | y :: ys => if strLt x y then x :: y :: ys else y :: insertStr x ys

/-- Ascending insertion sort; on duplicate-free input it agrees with
the Python `sorted`. -/
def sortStr : List String → List String
  | [] => []
  | x :: xs => insertStr x (sortStr xs)

/-- Model of get_FTDI_devices_major_number: the sorted set of major location
numbers of the ports that have a (truthy) location. -/
def get_FTDI_devices_major_number (ports : List ListPortInfo) : List String :=
  sortStr (dedupStr (collectMajors ports))

/-- The six logical channels, in the attribute declaration order of the
VCUPort dataclass. -/
inductive Channel where
  | HPA
  | HIA
  | HIB
  | LPA
  | SGA
  | JUMPERS
deriving DecidableEq

def channelsList : List Channel :=
  [Channel.HPA, Channel.HIA, Channel.HIB, Channel.LPA, Channel.SGA, Channel.JUMPERS]

/-- The pattern string rf".*{hub}:1\.{idx}" built by get_location_regex. -/
def mkPat (hub : String) (idx : Nat) : String :=
  ".*" ++ hub ++ ":1\\." ++ toString idx

/-- Model of VCUPort.get_location_regex: the table of location patterns, one per
channel, from the sorted major-number list.  FTDI1 is the first entry if
any, FTDI2 the second if any; on Windows every sub-port index is shifted
by one.  With two FTDI devices all six channels get patterns; with at
most one, SGA and JUMPERS get None and the other four use FTDI1 —
rendered through the f-string, so an absent FTDI1 appears as the literal
text "None" in the pattern. -/
def get_location_regex (windows : Bool) (l : List String) (c : Channel) : Option String :=
  let FTDI1 : Option String := l.head?
  let FTDI2 : Option String := l.tail.head?
  let add : Nat := if windows then 1 else 0
  match FTDI2 with
  | some f2 =>
    match c with
    | Channel.HPA => some (mkPat (pyStrOpt FTDI1) (0 + add))
    | Channel.HIA => some (mkPat (pyStrOpt FTDI1) (3 + add))
    | Channel.HIB => some (mkPat (pyStrOpt FTDI1) (2 + add))
    | Channel.LPA => some (mkPat (pyStrOpt FTDI1) (1 + add))
    | Channel.SGA => some (mkPat f2 (0 + add))
    | Channel.JUMPERS => some (mkPat f2 (1 + add))
  | none =>
    match c with
    | Channel.HPA => some (mkPat (pyStrOpt FTDI1) (2 + add))
    | Channel.HIA => some (mkPat (pyStrOpt FTDI1) (0 + add))
    | Channel.HIB => some (mkPat (pyStrOpt FTDI1) (1 + add))
    | Channel.LPA => some (mkPat (pyStrOpt FTDI1) (3 + add))
    | Channel.SGA => none
    | Channel.JUMPERS => none

/-- The VCUPort dataclass: one optional device path per channel, all
fields defaulting to None. -/
structure VCUPort where
  HPA : Option String := none
  HIA : Option String := none
  HIB : Option String := none
  LPA : Option String := none
  SGA : Option String := none
  JUMPERS : Option String := none
deriving DecidableEq

def VCUPort.get (m : VCUPort) : Channel → Option String
  | Channel.HPA => m.HPA
  | Channel.HIA => m.HIA
  | Channel.HIB => m.HIB
  | Channel.LPA => m.LPA
  | Channel.SGA => m.SGA
  | Channel.JUMPERS => m.JUMPERS

def VCUPort.set (m : VCUPort) : Channel → String → VCUPort
  | Channel.HPA, v => { m with HPA := some v }
  | Channel.HIA, v => { m with HIA := some v }
  | Channel.HIB, v => { m with HIB := some v }
  | Channel.LPA, v => { m with LPA := some v }
  | Channel.SGA, v => { m with SGA := some v }
  | Channel.JUMPERS, v => { m with JUMPERS := some v }

/-- One step of the inner attribute loop of map_vcu_ports: skip the
channel when its pattern is None, otherwise overwrite the field of the
channel with the device path of this port when its location (rendered through
str) matches the pattern. -/
def stepChan (regex : Channel → Option String) (p : ListPortInfo) (m : VCUPort)
    (c : Channel) : VCUPort :=
  match regex c with
  | none => m
  | some pat => if pyReMatch pat (pyStrOpt p.location) then m.set c p.device else m

/-- The body of the outer port loop of map_vcu_ports: try every channel
pattern against this port. -/
def applyPort (regex : Channel → Option String) (m : VCUPort) (p : ListPortInfo) : VCUPort :=
  channelsList.foldl (stepChan regex p) m

/-- The pattern table map_vcu_ports computes for a given port list. -/
def regexOf (windows : Bool) (ports : List ListPortInfo) : Channel → Option String :=
  get_location_regex windows (get_FTDI_devices_major_number ports)

/-- Model of map_vcu_ports: fold every port through every channel pattern,
starting from the all-None VCUPort. -/
def map_vcu_ports (windows : Bool) (ports : List ListPortInfo) : VCUPort :=
  ports.foldl (applyPort (regexOf windows ports)) {}

/-- The device path of the last port in the list satisfying f, if any
(what the overwrite semantics of the assignment loop produces). -/
def lastMatchDevice (f : ListPortInfo → Bool) : List ListPortInfo → Option String
  | [] => none
  | p :: rest =>
    match lastMatchDevice f rest with
    | some d => some d
    | none => if f p then some p.device else none

/-- Modelled from the spec: first-match-wins assignment — the device path
of the first candidate port, in the stable sort order of the filter, whose
location matches (spec section 4.4). -/
def specFirstMatchDevice (f : ListPortInfo → Bool) : List ListPortInfo → Option String
  | [] => none
  | p :: rest => if f p then some p.device else specFirstMatchDevice f rest

/-- Stable insertion keeping ascending order of device paths. -/
def insertByDevice (x : ListPortInfo) : List ListPortInfo → List ListPortInfo
  | [] => [x]
  | y :: ys => if strLt x.device y.device then x :: y :: ys else y :: insertByDevice x ys

/-- Model of sorted(ports): the pyserial ListPortInfo orders by device
path; the sort is stable. -/
def sortByDevice (l : List ListPortInfo) : List ListPortInfo :=
  l.foldl (fun acc x => insertByDevice x acc) []

/-- Model of get_vcu_port_map: sort, partition by vid/pid, map the valid ports,
and report whether any valid port was found. -/
def get_vcu_port_map (windows : Bool) (ports : List ListPortInfo) (vid pid : Nat) :
    VCUPort × Bool :=
  let valid_ports := (sortByDevice ports).filter (fun p => p.vid == vid && p.pid == pid)
  (map_vcu_ports windows valid_ports, !valid_ports.isEmpty)

/-- Model of the main entry of UARTVCUPortMap.py: exit with 0 when valid ports were found
and 1 otherwise, with the default vid 1027 and pid 24593. -/
def mainExitCode (windows : Bool) (ports : List ListPortInfo) : Nat :=
  if (get_vcu_port_map windows ports 1027 24593).2 then 0 else 1

/-! ### Data model of testPortmap.py -/

/-- The Python values that can flow out of verify_uart_connection: a
bool (from `output and (needle in output)` with truthy output), a str
(the falsy "" response passed through by `and`, or the sentinel
"NOT_IMPLEMENTED"), or None (the error
return of send_command_to_serial_device, passed through by `and`). -/
inductive PyVal where
  | vBool (b : Bool)
  | vStr (s : String)
  | vNone
deriving DecidableEq

/-- Python truthiness of such a value. -/
def pyTruthy : PyVal → Bool
  | PyVal.vBool b => b
  | PyVal.vStr s => !s.data.isEmpty
  | PyVal.vNone => false

/-- Model of send_command_to_serial_device: writes the command plus a trailing
carriage return to the serial device and reads the response.  The
transport argument models open/write/read on the already-chosen port:
it yields the bytes read (possibly none before the timeout, giving ""),
or Option.none for the SerialException path, in which case the function
returns Python None. -/
def send_command_to_serial_device (transport : String → Option String)
    (command : String) : Option String :=
  transport (command ++ "\r")

/-- Model of verify_uart_connection: dispatch on the channel name, probe, and
evaluate `output and (expected in output)` (a regex search for SGA).
JUMPERS never probes and returns the string "NOT_IMPLEMENTED"; unknown
names return False. -/
def verify_uart_connection (transport : String → Option String)
    (uart_target : String) : PyVal :=
  match uart_target with
  | "HPA" =>
    match send_command_to_serial_device transport "uname -a" with
    | none => PyVal.vNone
    | some out =>
      if out.data.isEmpty then PyVal.vStr out
      else PyVal.vBool (containsSubstrStr "QNX hpa" out)
  | "HIA" =>
    match send_command_to_serial_device transport "" with
    | none => PyVal.vNone
    | some out =>
      if out.data.isEmpty then PyVal.vStr out
      else PyVal.vBool (containsSubstrStr "GoForHIA>" out)
  | "LPA" =>
    match send_command_to_serial_device transport "" with
    | none => PyVal.vNone
    | some out =>
      if out.data.isEmpty then PyVal.vStr out
      else PyVal.vBool (containsSubstrStr "Atmel LP->" out)
  | "SGA" =>
    match send_command_to_serial_device transport "" with
    | none => PyVal.vNone
    | some out =>
      if out.data.isEmpty then PyVal.vStr out
      else PyVal.vBool (pySearch "DoIP-.* login:" out)
  | "HIB" =>
    match send_command_to_serial_device transport "" with
    | none => PyVal.vNone
    | some out =>
      if out.data.isEmpty then PyVal.vStr out
      else PyVal.vBool (containsSubstrStr "GoForHIB>" out)
  | "JUMPERS" => PyVal.vStr "NOT_IMPLEMENTED"
  | _ => PyVal.vBool false

/-- The four per-channel outcomes printed by the main loop of testPortmap. -/
inductive Verdict where
  | Pass
  | Fail
  | NotMapped
  | NotImplemented
deriving DecidableEq

/-- The body of the per-port loop of testPortmap main for a testable key: a
None value short-circuits to NOT MAPPED; otherwise the
verify_uart_connection status is classified — the string sentinel gives
NOT IMPLEMENTED, a truthy status PASS, anything else FAIL. -/
def classify_channel (transport : String → Option String) (key : String)
    (value : Option String) : Verdict :=
  match value with
  | none => Verdict.NotMapped
  | some _ =>
    let status := verify_uart_connection transport key
    if status = PyVal.vStr "NOT_IMPLEMENTED" then Verdict.NotImplemented
    else if pyTruthy status then Verdict.Pass
    else Verdict.Fail

/-- Keys of the JSON output that are never probed as serial ports. -/
def non_testable_fields : List String :=
  ["MASTER", "board_type", "current_mode", "previous_mode", "error", "UNIDENTIFIED"]

/-- The verification loop of testPortmap main over the key/value items of the
port map: skip non-testable keys, classify every other channel in order.
The transports argument gives, per key, the transport for the device of
that channel. -/
def run_verification (transports : String → String → Option String)
    (items : List (String × Option String)) : List (String × Verdict) :=
  items.filterMap (fun kv =>
    if non_testable_fields.contains kv.1 then none
    else some (kv.1, classify_channel (transports kv.1) kv.1 kv.2))

/-! ### Concrete inputs used by the concrete theorems below -/

/-- Two candidate ports on the same hub whose locations both match the
single-hub HIA pattern. -/
def c1ports : List ListPortInfo :=
  [⟨"A", some "3:1.0", 1027, 24593⟩, ⟨"B", some "3:1.0", 1027, 24593⟩]

/-- One port passing the vendor/product filter but carrying no location:
it maps no channel, yet it makes valid_ports non-empty. -/
def c2bad : List ListPortInfo := [⟨"COM3", none, 1027, 24593⟩]

/-- One candidate port with no location path: the MajorNumberSet is empty. -/
def c5ports : List ListPortInfo := [⟨"COM9", none, 1027, 24593⟩]

/-- One candidate port giving exactly one distinct hub identifier. -/
def c7ports : List ListPortInfo := [⟨"COM1", some "3:1.0", 1027, 24593⟩]

/-- Two candidate ports: the first carries a location whose hub prefix
contains a vertical bar, the second has no location at all. -/
def c10ports : List ListPortInfo :=
  [⟨"a", some "No|:1.0", 1027, 24593⟩, ⟨"b", none, 1027, 24593⟩]

/-! ### Helper lemmas: field access through the assignment loop -/

lemma VCUPort.get_default (c : Channel) : ({} : VCUPort).get c = none := by
  cases c <;> rfl

lemma VCUPort.get_set_self (m : VCUPort) (c : Channel) (v : String) :
    (m.set c v).get c = some v := by
  cases c <;> rfl

lemma VCUPort.get_set_ne (m : VCUPort) {c' c : Channel} (v : String) (h : c' ≠ c) :
    (m.set c' v).get c = m.get c := by
  cases c' <;> cases c <;> first | rfl | exact absurd rfl h

lemma stepChan_get_self (regex : Channel → Option String) (p : ListPortInfo)
    (m : VCUPort) (c : Channel) :
    (stepChan regex p m c).get c =
      match regex c with
      | none => m.get c
      | some pat =>
        if pyReMatch pat (pyStrOpt p.location) then some p.device else m.get c := by
  unfold stepChan
  cases regex c with
  | none => rfl
  | some pat =>
    by_cases h : pyReMatch pat (pyStrOpt p.location) = true
    · simp [h, VCUPort.get_set_self]
    · simp [h]

lemma stepChan_get_ne (regex : Channel → Option String) (p : ListPortInfo)
    (m : VCUPort) {c' c : Channel} (h : c' ≠ c) :
    (stepChan regex p m c').get c = m.get c := by
  unfold stepChan
  cases regex c' with
  | none => rfl
  | some pat =>
    by_cases hm : pyReMatch pat (pyStrOpt p.location) = true
    · simp [hm, VCUPort.get_set_ne _ _ h]
    · simp [hm]

lemma applyPort_get (regex : Channel → Option String) (m : VCUPort)
    (p : ListPortInfo) (c : Channel) :
    (applyPort regex m p).get c =
      match regex c with
      | none => m.get c
      | some pat =>
        if pyReMatch pat (pyStrOpt p.location) then some p.device else m.get c := by
  have step_ne := fun (m : VCUPort) {a b : Channel} (h : a ≠ b) =>
    stepChan_get_ne regex p m h
  cases c <;>
    simp only [applyPort, channelsList, List.foldl] <;>
    (repeat rw [step_ne _ (by decide)]) <;>
    rw [stepChan_get_self] <;>
    (repeat rw [step_ne _ (by decide)])

lemma foldl_applyPort_get_none (regex : Channel → Option String) {c : Channel}
    (h : regex c = none) (ports : List ListPortInfo) (m : VCUPort) :
    ((ports.foldl (applyPort regex) m).get c) = m.get c := by
  induction ports generalizing m with
  | nil => rfl
  | cons p rest ih =>
    rw [List.foldl_cons, ih, applyPort_get, h]

lemma foldl_applyPort_get_some (regex : Channel → Option String) {c : Channel}
    {pat : String} (h : regex c = some pat) (ports : List ListPortInfo) (m : VCUPort) :
    ((ports.foldl (applyPort regex) m).get c) =
      match lastMatchDevice (fun p => pyReMatch pat (pyStrOpt p.location)) ports with
      | some d => some d
      | none => m.get c := by
  induction ports generalizing m with
  | nil => rfl
  | cons p rest ih =>
    rw [List.foldl_cons, ih, lastMatchDevice]
    cases lastMatchDevice (fun p => pyReMatch pat (pyStrOpt p.location)) rest with
    | some d => rfl
    | none =>
      rw [applyPort_get, h]
      by_cases hm : pyReMatch pat (pyStrOpt p.location) = true
      · simp [hm]
      · simp [hm]

/-- The value of every channel of the produced VCUPort: None when the
channel has no pattern, otherwise the device path of the last candidate
port whose (str-rendered) location matches the pattern. -/
lemma map_vcu_ports_get (windows : Bool) (ports : List ListPortInfo) (c : Channel) :
    (map_vcu_ports windows ports).get c =
      match regexOf windows ports c with
      | none => none
      | some pat => lastMatchDevice (fun p => pyReMatch pat (pyStrOpt p.location)) ports := by
  unfold map_vcu_ports
  cases h : regexOf windows ports c with
  | none => rw [foldl_applyPort_get_none _ h, VCUPort.get_default]
  | some pat =>
    rw [foldl_applyPort_get_some _ h, VCUPort.get_default]
    cases hl : lastMatchDevice (fun p => pyReMatch pat (pyStrOpt p.location)) ports <;>
      simp [hl]

lemma lastMatchDevice_mem {f : ListPortInfo → Bool} {l : List ListPortInfo} {d : String}
    (h : lastMatchDevice f l = some d) :
    ∃ p, p ∈ l ∧ f p = true ∧ d = p.device := by
  induction l with
  | nil => simp [lastMatchDevice] at h
  | cons p rest ih =>
    rw [lastMatchDevice] at h
    cases hr : lastMatchDevice f rest with
    | some d2 =>
      rw [hr] at h
      obtain ⟨q, hq, hf, hd⟩ := ih (by rw [hr, ← h])
      exact ⟨q, List.mem_cons_of_mem p hq, hf, hd⟩
    | none =>
      rw [hr] at h
      by_cases hf : f p = true
      · rw [if_pos hf] at h
        exact ⟨p, List.mem_cons_self p rest, hf, (Option.some_inj.mp h).symm⟩
      · rw [if_neg hf] at h
        cases h

lemma lastMatchDevice_eq_none {f : ListPortInfo → Bool} {l : List ListPortInfo}
    (h : ∀ p ∈ l, f p = false) : lastMatchDevice f l = none := by
  induction l with
  | nil => rfl
  | cons p rest ih =>
    rw [lastMatchDevice, ih (fun q hq => h q (List.mem_cons_of_mem p hq)),
      h p (List.mem_cons_self p rest)]
    rfl

lemma insertStr_ne_nil (x : String) (l : List String) : insertStr x l ≠ [] := by
  cases l with
  | nil => simp [insertStr]
  | cons y ys =>
    unfold insertStr
    by_cases hx : strLt x y = true
    · simp [hx]
    · simp [hx]

lemma sortStr_eq_nil {l : List String} (h : sortStr l = []) : l = [] := by
  cases l with
  | nil => rfl
  | cons x xs => exact absurd h (insertStr_ne_nil x (sortStr xs))

lemma dedupStr_eq_nil {l : List String} (h : dedupStr l = []) : l = [] := by
  induction l with
  | nil => rfl
  | cons x xs ih =>
    exfalso
    unfold dedupStr at h
    by_cases hc : xs.contains x = true
    · rw [if_pos hc] at h
      have hxs := ih h
      subst hxs
      simp at hc
    · rw [if_neg hc] at h
      cases h

/-- An empty major-number set forces every port to have a falsy location:
either absent or the empty string.  (Any truthy location would have
contributed its major number.) -/
lemma collectMajors_locations {ports : List ListPortInfo} (h : collectMajors ports = []) :
    ∀ p ∈ ports, p.location = none ∨ p.location = some "" := by
  induction ports with
  | nil => intro p hp; cases hp
  | cons q rest ih =>
    intro p hp
    cases hql : q.location with
    | none =>
      have h2 : collectMajors rest = [] := by
        have he : collectMajors (q :: rest) = collectMajors rest := by
          conv_lhs => unfold collectMajors
          rw [hql]
        rw [he] at h
        exact h
      rcases List.mem_cons.mp hp with hpq | hpr
      · subst hpq
        exact Or.inl hql
      · exact ih h2 p hpr
    | some s =>
      have hbranch : (if s.data.isEmpty then collectMajors rest
          else majorOf s :: collectMajors rest) = [] := by
        have he : collectMajors (q :: rest) = (if s.data.isEmpty then collectMajors rest
            else majorOf s :: collectMajors rest) := by
          conv_lhs => unfold collectMajors
          rw [hql]
        rw [he] at h
        exact h
      cases hse : s.data.isEmpty with
      | true =>
        rw [hse] at hbranch
        simp only [if_true] at hbranch
        have hs0 : s = "" := by
          cases s with
          | mk data =>
            simp only [List.isEmpty_eq_true] at hse
            rw [hse]
        rcases List.mem_cons.mp hp with hpq | hpr
        · subst hpq
          right
          rw [hql, hs0]
        · exact ih hbranch p hpr
      | false =>
        rw [hse] at hbranch
        simp at hbranch

/-! ### Helper lemmas: the regex model -/

lemma parseRegex_esc (d : Char) (t : List Char) :
    parseRegex ('\\' :: d :: t) = RTok.lit d :: parseRegex t := rfl

lemma parseRegex_dotstar (t : List Char) :
    parseRegex ('.' :: '*' :: t) = RTok.star :: parseRegex t := rfl

lemma parseRegex_cons_plain {c : Char} (h1 : c ≠ '\\') (h2 : c ≠ '.') (t : List Char) :
    parseRegex (c :: t) = RTok.lit c :: parseRegex t := by
  rw [parseRegex.eq_def]
  split
  case h_1 => simp_all
  case h_2 => simp_all
  case h_3 => simp_all
  case h_4 => simp_all
  case h_5 x heq =>
    rw [List.cons.injEq] at heq
    exact absurd heq.1 h2
  case h_6 g1 g2 g3 heq =>
    rw [List.cons.injEq] at heq
    rw [← heq.1, ← heq.2]

lemma parseRegex_dot_cons {d : Char} (hd : d ≠ '*') (t : List Char) :
    parseRegex ('.' :: d :: t) = RTok.dot :: parseRegex (d :: t) := by
  rw [parseRegex.eq_def]
  split
  case h_1 => simp_all
  case h_2 => simp_all
  case h_3 => simp_all
  case h_4 => simp_all
  case h_5 x heq =>
    rw [List.cons.injEq] at heq
    rw [← heq.2]
  case h_6 g1 g2 g3 heq =>
    rw [List.cons.injEq] at heq
    exact absurd heq.1.symm g3

lemma anySuffix_exists {p : List Char → Bool} {l : List Char} (h : anySuffix p l = true) :
    ∃ t, t <:+ l ∧ p t = true := by
  induction l with
  | nil => exact ⟨[], List.suffix_refl [], h⟩
  | cons c cs ih =>
    simp only [anySuffix, Bool.or_eq_true] at h
    rcases h with h | h
    · exact ⟨c :: cs, List.suffix_refl _, h⟩
    · obtain ⟨t, ht, hp⟩ := ih h
      exact ⟨t, ht.trans (List.suffix_cons c cs), hp⟩

/-- Every literal token of a matching token list is consumed against some
character of the subject: a match forces every literal to occur. -/
lemma toksMatch_lit_mem : ∀ (ts : List RTok) (cs : List Char) (a : Char),
    toksMatch ts cs = true → RTok.lit a ∈ ts → a ∈ cs := by
  intro ts
  induction ts with
  | nil => intro cs a _ hm; simp at hm
  | cons t ts ih =>
    intro cs a hmatch hmem
    cases t with
    | star =>
      have hmem2 : RTok.lit a ∈ ts := by
        rcases List.mem_cons.mp hmem with h | h
        · cases h
        · exact h
      simp only [toksMatch] at hmatch
      obtain ⟨t2, ht2, hp⟩ := anySuffix_exists hmatch
      exact ht2.subset (ih t2 a hp hmem2)
    | dot =>
      cases cs with
      | nil => simp [toksMatch] at hmatch
      | cons c cs2 =>
        have hmem2 : RTok.lit a ∈ ts := by
          rcases List.mem_cons.mp hmem with h | h
          · cases h
          · exact h
        simp only [toksMatch] at hmatch
        exact List.mem_cons_of_mem c (ih cs2 a hmatch hmem2)
    | lit b =>
      cases cs with
      | nil => simp [toksMatch] at hmatch
      | cons c cs2 =>
        simp only [toksMatch, Bool.and_eq_true, beq_iff_eq] at hmatch
        rcases List.mem_cons.mp hmem with h | h
        · rw [RTok.lit.injEq] at h
          rw [h, hmatch.1]
          exact List.mem_cons_self c cs2
        · exact List.mem_cons_of_mem c (ih cs2 a hmatch.2 h)

/-- Any pattern whose character list has an (unescaped or escaped) colon
after some prefix parses to a token list containing the literal colon. -/
lemma lit_colon_mem_aux : ∀ (n : Nat) (l rest : List Char), l.length ≤ n →
    RTok.lit ':' ∈ parseRegex (l ++ ':' :: rest) := by
  intro n
  induction n with
  | zero =>
    intro l rest hl
    have hnil : l = [] := List.length_eq_zero.mp (Nat.le_zero.mp hl)
    subst hnil
    rw [List.nil_append, parseRegex_cons_plain (by decide) (by decide)]
    exact List.mem_cons_self _ _
  | succ n ih =>
    intro l rest hl
    cases l with
    | nil => exact ih [] rest (by simp)
    | cons c l2 =>
      by_cases hc1 : c = '\\'
      · subst hc1
        cases l2 with
        | nil =>
          rw [List.cons_append, List.nil_append, parseRegex_esc]
          exact List.mem_cons_self _ _
        | cons d l3 =>
          rw [List.cons_append, List.cons_append, parseRegex_esc]
          refine List.mem_cons_of_mem _ (ih l3 rest ?_)
          simp only [List.length_cons] at hl
          omega
      · by_cases hc2 : c = '.'
        · subst hc2
          cases l2 with
          | nil =>
            rw [List.cons_append, List.nil_append, parseRegex_dot_cons (by decide)]
            exact List.mem_cons_of_mem _ (ih [] rest (by simp))
          | cons d l3 =>
            by_cases hd : d = '*'
            · subst hd
              rw [List.cons_append, List.cons_append, parseRegex_dotstar]
              refine List.mem_cons_of_mem _ (ih l3 rest ?_)
              simp only [List.length_cons] at hl
              omega
            · rw [List.cons_append, List.cons_append, parseRegex_dot_cons hd,
                ← List.cons_append]
              refine List.mem_cons_of_mem _ (ih (d :: l3) rest ?_)
              simp only [List.length_cons] at hl ⊢
              omega
        · rw [List.cons_append, parseRegex_cons_plain hc1 hc2]
          refine List.mem_cons_of_mem _ (ih l2 rest ?_)
          simp only [List.length_cons] at hl
          omega

lemma lit_colon_mem (l rest : List Char) :
    RTok.lit ':' ∈ parseRegex (l ++ ':' :: rest) :=
  lit_colon_mem_aux l.length l rest (Nat.le_refl _)

/-- Every pattern produced by get_location_regex has the mkPat shape. -/
lemma get_location_regex_shape {w : Bool} {l : List String} {c : Channel} {pat : String}
    (h : get_location_regex w l c = some pat) : ∃ hub idx, pat = mkPat hub idx := by
  rcases l with _ | ⟨a, _ | ⟨b, t⟩⟩ <;> cases c <;>
    simp only [get_location_regex, List.head?, List.tail] at h <;>
    first
      | exact ⟨_, _, (Option.some_inj.mp h).symm⟩
      | cases h

/-- The character-list form of an mkPat pattern. -/
lemma mkPat_data (hub : String) (idx : Nat) :
    (mkPat hub idx).data =
      ('.' :: '*' :: hub.data) ++ ':' :: ('1' :: '\\' :: '.' :: (toString idx).data) := by
  have h1 : (".*" : String).data = ['.', '*'] := rfl
  have h2 : (":1\\." : String).data = [':', '1', '\\', '.'] := rfl
  simp [mkPat, String.data_append, h1, h2]

lemma splitAlt_esc (d : Char) (t : List Char) :
    splitAlt ('\\' :: d :: t) =
      match splitAlt t with
      | [] => [['\\', d]]
      | a :: as => ('\\' :: d :: a) :: as := rfl

lemma splitAlt_cons_plain {c : Char} (h1 : c ≠ '\\') (h2 : c ≠ '|') (t : List Char) :
    splitAlt (c :: t) =
      match splitAlt t with
      | [] => [[c]]
      | a :: as => (c :: a) :: as := by
  rw [splitAlt.eq_def]
  split <;> simp_all

/-- A pattern without a vertical bar is a single alternative. -/
lemma splitAlt_no_bar_aux : ∀ (n : Nat) (l : List Char), l.length ≤ n → '|' ∉ l →
    splitAlt l = [l] := by
  intro n
  induction n with
  | zero =>
    intro l hl _
    have hnil : l = [] := List.length_eq_zero.mp (Nat.le_zero.mp hl)
    subst hnil
    rfl
  | succ n ih =>
    intro l hl hbar
    cases l with
    | nil => rfl
    | cons c l2 =>
      by_cases hc : c = '\\'
      · subst hc
        cases l2 with
        | nil => rfl
        | cons d l3 =>
          have hlen : l3.length ≤ n := by
            simp only [List.length_cons] at hl
            omega
          have hb3 : '|' ∉ l3 := fun hm =>
            hbar (List.mem_cons_of_mem _ (List.mem_cons_of_mem _ hm))
          rw [splitAlt_esc, ih l3 hlen hb3]
      · have hcb : c ≠ '|' := fun hx => hbar (hx ▸ List.mem_cons_self c l2)
        have hlen : l2.length ≤ n := by
          simp only [List.length_cons] at hl
          omega
        have hb2 : '|' ∉ l2 := fun hm => hbar (List.mem_cons_of_mem _ hm)
        rw [splitAlt_cons_plain hc hcb, ih l2 hlen hb2]

lemma splitAlt_no_bar (l : List Char) (h : '|' ∉ l) : splitAlt l = [l] :=
  splitAlt_no_bar_aux l.length l (Nat.le_refl _) h

/-- On bar-free patterns the alternation layer is invisible. -/
lemma pyReMatch_no_bar (pat s : String) (h : '|' ∉ pat.data) :
    pyReMatch pat s = toksMatch (parseRegex pat.data) s.data := by
  unfold pyReMatch
  rw [splitAlt_no_bar _ h]
  simp [List.any]

lemma mkPat_no_bar {hub : String} {idx : Nat}
    (hb : '|' ∉ hub.data) (hi : '|' ∉ (toString idx).data) :
    '|' ∉ (mkPat hub idx).data := by
  rw [mkPat_data]
  intro hmem
  simp only [List.mem_append, List.mem_cons] at hmem
  rcases hmem with (h | h | h) | (h | h | h | h | h)
  · exact absurd h (by decide)
  · exact absurd h (by decide)
  · exact hb h
  · exact absurd h (by decide)
  · exact absurd h (by decide)
  · exact absurd h (by decide)
  · exact absurd h (by decide)
  · exact hi h

/-- A generated pattern whose hub and index texts are bar-free matches no
subject lacking a colon: every alternative-free pattern of this shape
demands a literal colon.  In particular it rejects the rendering "None"
of an absent location and the rendering "" of an empty one. -/
lemma mkPat_no_match_colonless (hub : String) (idx : Nat) (s : String)
    (hb : '|' ∉ hub.data) (hi : '|' ∉ (toString idx).data) (hs : ':' ∉ s.data) :
    pyReMatch (mkPat hub idx) s = false := by
  cases hm : pyReMatch (mkPat hub idx) s with
  | false => rfl
  | true =>
    exfalso
    rw [pyReMatch_no_bar _ _ (mkPat_no_bar hb hi)] at hm
    have hcol : RTok.lit ':' ∈ parseRegex (mkPat hub idx).data := by
      rw [mkPat_data]
      exact lit_colon_mem _ _
    exact hs (toksMatch_lit_mem _ _ _ hm hcol)

lemma mem_insertByDevice {x y : ListPortInfo} {l : List ListPortInfo} :
    x ∈ insertByDevice y l ↔ x = y ∨ x ∈ l := by
  induction l with
  | nil => simp [insertByDevice]
  | cons z zs ih =>
    unfold insertByDevice
    cases hlt : strLt y.device z.device with
    | true => simp [List.mem_cons]
    | false =>
      simp only [Bool.false_eq_true, if_false, List.mem_cons, ih]
      tauto

lemma mem_sortByDevice_aux (l : List ListPortInfo) :
    ∀ (acc : List ListPortInfo) (x : ListPortInfo),
      (x ∈ l.foldl (fun acc y => insertByDevice y acc) acc ↔ x ∈ acc ∨ x ∈ l) := by
  induction l with
  | nil => simp
  | cons p rest ih =>
    intro acc x
    rw [List.foldl_cons, ih, mem_insertByDevice]
    simp only [List.mem_cons]
    tauto

lemma mem_sortByDevice {x : ListPortInfo} {l : List ListPortInfo} :
    x ∈ sortByDevice l ↔ x ∈ l := by
  unfold sortByDevice
  rw [mem_sortByDevice_aux]
  simp

/-! ### Claim C1: tie-break order of the Channel Assigner -/

/-- Claim C1 is false on the code: with two candidate ports whose
locations both match the HIA pattern, map_vcu_ports assigns the device
path of the SECOND (last) port, "B", while the claimed first-match rule
yields "A" — the assignment loop overwrites on every later match. -/
theorem C1_counterexample :
    regexOf false c1ports Channel.HIA = some (mkPat "3" 0) ∧
    specFirstMatchDevice
      (fun p => pyReMatch (mkPat "3" 0) (pyStrOpt p.location)) c1ports = some "A" ∧
    (map_vcu_ports false c1ports).get Channel.HIA = some "B" ∧
    (some "B" : Option String) ≠ some "A" :=
  ⟨by decide, by decide, by decide, by decide⟩

/-- Claim C1 amended: for every channel whose pattern is present, the
Channel Assigner assigns the device path of the LAST port, in the
stable sort order of the filter, whose location matches the pattern;
when several ports match the same pattern, the last encountered wins. -/
theorem C1_amended (w : Bool) (ports : List ListPortInfo) (c : Channel) (pat : String)
    (h : regexOf w ports c = some pat) :
    (map_vcu_ports w ports).get c =
      lastMatchDevice (fun p => pyReMatch pat (pyStrOpt p.location)) ports := by
  rw [map_vcu_ports_get, h]

theorem C1_amended_witness :
    regexOf false c1ports Channel.HIA = some (mkPat "3" 0) ∧
    (map_vcu_ports false c1ports).get Channel.HIA =
      lastMatchDevice (fun p => pyReMatch (mkPat "3" 0) (pyStrOpt p.location)) c1ports :=
  ⟨by decide, C1_amended false c1ports Channel.HIA (mkPat "3" 0) (by decide)⟩

/-! ### Claim C2: exit status of main -/

/-- Claim C2 is false on the code: with a single vid/pid-matching port
that has no location string, the resulting LogicalPortMap is entirely
empty (the all-None VCUPort), yet main exits 0 — the exit status tests
presence of filtered ports, not of mapped channels. -/
theorem C2_counterexample :
    (get_vcu_port_map false c2bad 1027 24593).1 = {} ∧
    mainExitCode false c2bad = 0 :=
  ⟨by decide, by decide⟩

/-- Claim C2 amended: main exits 0 exactly when at least one port passes
the vendor/product filter (vid 1027, pid 24593), and non-zero exactly
when none does.  If some channel is mapped the exit status is still 0
(a mapped channel requires a filtered port), but the converse fails: the
map can be entirely empty with exit status 0. -/
theorem C2_amended (w : Bool) (ports : List ListPortInfo) :
    (mainExitCode w ports = 0 ↔ ∃ p, p ∈ ports ∧ p.vid = 1027 ∧ p.pid = 24593) ∧
    (∀ c : Channel, (get_vcu_port_map w ports 1027 24593).1.get c ≠ none →
      mainExitCode w ports = 0) := by
  constructor
  · unfold mainExitCode get_vcu_port_map
    cases hL : ((sortByDevice ports).filter
        (fun p => p.vid == 1027 && p.pid == 24593)).isEmpty with
    | true =>
      simp only [hL, Bool.not_true, Bool.false_eq_true, if_false]
      rw [List.isEmpty_eq_true, List.filter_eq_nil_iff] at hL
      constructor
      · intro h; cases h
      · rintro ⟨p, hp, hvid, hpid⟩
        exfalso
        exact hL p (mem_sortByDevice.mpr hp) (by simp [hvid, hpid])
    | false =>
      simp only [hL, Bool.not_false, if_true, true_iff]
      rw [List.isEmpty_eq_false] at hL
      obtain ⟨p, hp⟩ := List.exists_mem_of_ne_nil _ hL
      rw [List.mem_filter] at hp
      refine ⟨p, mem_sortByDevice.mp hp.1, ?_, ?_⟩
      · have := hp.2; simp only [Bool.and_eq_true, beq_iff_eq] at this; exact this.1
      · have := hp.2; simp only [Bool.and_eq_true, beq_iff_eq] at this; exact this.2
  · intro c h
    unfold get_vcu_port_map at h
    unfold mainExitCode get_vcu_port_map
    cases hL : ((sortByDevice ports).filter
        (fun p => p.vid == 1027 && p.pid == 24593)).isEmpty with
    | true =>
      exfalso
      rw [List.isEmpty_eq_true] at hL
      rw [hL] at h
      exact h (VCUPort.get_default c)
    | false => simp [hL]

theorem C2_amended_witness :
    (get_vcu_port_map false [⟨"COM1", some "3:1.0", 1027, 24593⟩] 1027 24593).1.get
      Channel.HIA ≠ none ∧
    mainExitCode false [⟨"COM1", some "3:1.0", 1027, 24593⟩] = 0 :=
  ⟨by decide,
    (C2_amended false [⟨"COM1", some "3:1.0", 1027, 24593⟩]).2 Channel.HIA (by decide)⟩

/-! ### Claim C3: the JUMPERS verdict -/

/-- Claim C3 is false on the code: a null-mapped JUMPERS channel is
classified NotMapped by the `value is None` short-circuit of testPortmap
main loop of testPortmap, not NotImplemented as claimed for every
mapping state. -/
theorem C3_counterexample :
    classify_channel (fun _ => none) "JUMPERS" none = Verdict.NotMapped ∧
    Verdict.NotMapped ≠ Verdict.NotImplemented :=
  ⟨by decide, by decide⟩

/-- Claim C3 amended: a MAPPED JUMPERS channel is always classified
NotImplemented, with no probe issued (the verdict is identical under any
two transports); a null-mapped channel — JUMPERS included — is classified
NotMapped. -/
theorem C3_amended :
    (∀ (t1 t2 : String → Option String) (v : String),
      classify_channel t1 "JUMPERS" (some v) = Verdict.NotImplemented ∧
      classify_channel t1 "JUMPERS" (some v) = classify_channel t2 "JUMPERS" (some v)) ∧
    (∀ (t : String → Option String) (key : String),
      classify_channel t key none = Verdict.NotMapped) :=
  ⟨fun _ _ _ => ⟨rfl, rfl⟩, fun _ _ => rfl⟩

/-! ### Claim C4: the eligibility rule of a channel pattern -/

/-- Claim C5 is false on the code: with an empty MajorNumberSet the
single-hub branch still runs and interpolates the absent hub through the
f-string, so HPA receives the pattern ".*None:1\.2" — not "no pattern"
as claimed for every channel. -/
theorem C5_counterexample :
    get_FTDI_devices_major_number c5ports = [] ∧
    get_location_regex false (get_FTDI_devices_major_number c5ports) Channel.HPA
      = some (mkPat "None" 2) ∧
    some (mkPat "None" 2) ≠ (none : Option String) :=
  ⟨by decide, by decide, by decide⟩

/-- Claim C5 amended: when the MajorNumberSet is empty, only SGA and
JUMPERS have no pattern; HPA, HIA, HIB and LPA receive the single-hub
patterns with the literal text "None" in the hub position.  These
degenerate patterns match no location the ports can render (under the
hypothesis every location is absent or empty, rendering as "None" or "",
neither of which carries the colon the patterns demand), so every one of
the six channels of the produced LogicalPortMap is null. -/
theorem C5_amended (w : Bool) (ports : List ListPortInfo)
    (h : get_FTDI_devices_major_number ports = []) :
    regexOf w ports Channel.SGA = none ∧
    regexOf w ports Channel.JUMPERS = none ∧
    regexOf w ports Channel.HPA = some (mkPat "None" (2 + (if w then 1 else 0))) ∧
    regexOf w ports Channel.HIA = some (mkPat "None" (0 + (if w then 1 else 0))) ∧
    regexOf w ports Channel.HIB = some (mkPat "None" (1 + (if w then 1 else 0))) ∧
    regexOf w ports Channel.LPA = some (mkPat "None" (3 + (if w then 1 else 0))) ∧
    (∀ c : Channel, (map_vcu_ports w ports).get c = none) := by
  have hr : regexOf w ports = get_location_regex w [] := by
    unfold regexOf; rw [h]
  have hlocs : ∀ p ∈ ports, p.location = none ∨ p.location = some "" :=
    collectMajors_locations (dedupStr_eq_nil (sortStr_eq_nil h))
  have hnomatch : ∀ (idx : Nat), '|' ∉ (toString idx).data →
      ∀ p ∈ ports, pyReMatch (mkPat "None" idx) (pyStrOpt p.location) = false := by
    intro idx hidx p hp
    rcases hlocs p hp with hl | hl <;> rw [hl] <;>
      exact mkPat_no_match_colonless _ _ _ (by decide) hidx (by decide)
  refine ⟨by rw [hr]; rfl, by rw [hr]; rfl, by rw [hr]; rfl, by rw [hr]; rfl,
    by rw [hr]; rfl, by rw [hr]; rfl, ?_⟩
  intro c
  rw [map_vcu_ports_get, hr]
  cases w <;> cases c <;>
    first
      | rfl
      | exact lastMatchDevice_eq_none (hnomatch _ (by decide))

theorem C5_amended_witness :
    get_FTDI_devices_major_number c5ports = [] ∧
    regexOf false c5ports Channel.SGA = none ∧
    regexOf false c5ports Channel.HPA = some (mkPat "None" (2 + (if false then 1 else 0))) ∧
    (map_vcu_ports false c5ports).get Channel.HPA = none :=
  ⟨by decide, (C5_amended false c5ports (by decide)).1,
    (C5_amended false c5ports (by decide)).2.2.1,
    (C5_amended false c5ports (by decide)).2.2.2.2.2.2 Channel.HPA⟩

/-! ### Claim C6: the dual-hub pattern table -/

/-- Claim C6 holds: with a two-entry MajorNumberSet [A, B], the pattern
table places HPA on hub A at sub-port offset 0, LPA at 1, HIB at 2, HIA
at 3, SGA on hub B at 0 and JUMPERS on hub B at 1 (each offset shifted by
the platform base); concretely, for hubs ["3","5"] under native
numbering, the pattern of each channel matches exactly the claimed
location. -/
theorem C6_dualhub_table :
    (∀ (w : Bool) (A B : String),
      get_location_regex w [A, B] Channel.HPA = some (mkPat A (0 + (if w then 1 else 0))) ∧
      get_location_regex w [A, B] Channel.LPA = some (mkPat A (1 + (if w then 1 else 0))) ∧
      get_location_regex w [A, B] Channel.HIB = some (mkPat A (2 + (if w then 1 else 0))) ∧
      get_location_regex w [A, B] Channel.HIA = some (mkPat A (3 + (if w then 1 else 0))) ∧
      get_location_regex w [A, B] Channel.SGA = some (mkPat B (0 + (if w then 1 else 0))) ∧
      get_location_regex w [A, B] Channel.JUMPERS
        = some (mkPat B (1 + (if w then 1 else 0)))) ∧
    (get_location_regex false ["3", "5"] Channel.HPA = some ".*3:1\\.0" ∧
     pyReMatch ".*3:1\\.0" "3:1.0" = true ∧
     get_location_regex false ["3", "5"] Channel.LPA = some ".*3:1\\.1" ∧
     pyReMatch ".*3:1\\.1" "3:1.1" = true ∧
     get_location_regex false ["3", "5"] Channel.HIB = some ".*3:1\\.2" ∧
     pyReMatch ".*3:1\\.2" "3:1.2" = true ∧
     get_location_regex false ["3", "5"] Channel.HIA = some ".*3:1\\.3" ∧
     pyReMatch ".*3:1\\.3" "3:1.3" = true ∧
     get_location_regex false ["3", "5"] Channel.SGA = some ".*5:1\\.0" ∧
     pyReMatch ".*5:1\\.0" "5:1.0" = true ∧
     get_location_regex false ["3", "5"] Channel.JUMPERS = some ".*5:1\\.1" ∧
     pyReMatch ".*5:1\\.1" "5:1.1" = true) :=
  ⟨fun _ _ _ => ⟨rfl, rfl, rfl, rfl, rfl, rfl⟩,
    by decide, by decide, by decide, by decide, by decide, by decide,
    by decide, by decide, by decide, by decide, by decide, by decide⟩

/-! ### Claim C7: the single-hub pattern table and SGA/JUMPERS -/

/-- Claim C7 holds: whenever the candidate ports yield exactly one
distinct hub identifier A, the table places HIA on hub A at offset 0, HIB
at 1, HPA at 2, LPA at 3 (shifted by the platform base), SGA and JUMPERS
get no pattern, and both are null in the produced map. -/
theorem C7_singlehub (w : Bool) (ports : List ListPortInfo) (A : String)
    (h : get_FTDI_devices_major_number ports = [A]) :
    regexOf w ports Channel.HIA = some (mkPat A (0 + (if w then 1 else 0))) ∧
    regexOf w ports Channel.HIB = some (mkPat A (1 + (if w then 1 else 0))) ∧
    regexOf w ports Channel.HPA = some (mkPat A (2 + (if w then 1 else 0))) ∧
    regexOf w ports Channel.LPA = some (mkPat A (3 + (if w then 1 else 0))) ∧
    regexOf w ports Channel.SGA = none ∧
    regexOf w ports Channel.JUMPERS = none ∧
    (map_vcu_ports w ports).get Channel.SGA = none ∧
    (map_vcu_ports w ports).get Channel.JUMPERS = none := by
  have hr : regexOf w ports = get_location_regex w [A] := by
    unfold regexOf; rw [h]
  have hsga : regexOf w ports Channel.SGA = none := by rw [hr]; rfl
  have hjmp : regexOf w ports Channel.JUMPERS = none := by rw [hr]; rfl
  refine ⟨by rw [hr]; rfl, by rw [hr]; rfl, by rw [hr]; rfl, by rw [hr]; rfl,
    hsga, hjmp, ?_, ?_⟩
  · rw [map_vcu_ports_get, hsga]
  · rw [map_vcu_ports_get, hjmp]

theorem C7_singlehub_witness :
    get_FTDI_devices_major_number c7ports = ["3"] ∧
    regexOf false c7ports Channel.SGA = none ∧
    (map_vcu_ports false c7ports).get Channel.SGA = none ∧
    (map_vcu_ports false c7ports).get Channel.JUMPERS = none :=
  ⟨by decide, (C7_singlehub false c7ports "3" (by decide)).2.2.2.2.1,
    (C7_singlehub false c7ports "3" (by decide)).2.2.2.2.2.2.1,
    (C7_singlehub false c7ports "3" (by decide)).2.2.2.2.2.2.2⟩

/-! ### Claim C8: the platform offset -/

/-- Claim C8 holds: for every major-number list and channel, either the
channel has no pattern on both platforms, or its shifted-numbering
pattern is the native-numbering pattern with the effective sub-port index
incremented by one; concretely, one hub ["7"] under shifted numbering
matches HIA at "7:1.1", HIB at "7:1.2", HPA at "7:1.3", LPA at "7:1.4",
while SGA and JUMPERS have no pattern. -/
theorem C8_platform_offset :
    (∀ (l : List String) (c : Channel),
      (∃ hub idx, get_location_regex false l c = some (mkPat hub idx) ∧
        get_location_regex true l c = some (mkPat hub (idx + 1))) ∨
      (get_location_regex false l c = none ∧ get_location_regex true l c = none)) ∧
    (get_location_regex true ["7"] Channel.HIA = some ".*7:1\\.1" ∧
     pyReMatch ".*7:1\\.1" "7:1.1" = true ∧
     get_location_regex true ["7"] Channel.HIB = some ".*7:1\\.2" ∧
     pyReMatch ".*7:1\\.2" "7:1.2" = true ∧
     get_location_regex true ["7"] Channel.HPA = some ".*7:1\\.3" ∧
     pyReMatch ".*7:1\\.3" "7:1.3" = true ∧
     get_location_regex true ["7"] Channel.LPA = some ".*7:1\\.4" ∧
     pyReMatch ".*7:1\\.4" "7:1.4" = true ∧
     get_location_regex true ["7"] Channel.SGA = none ∧
     get_location_regex true ["7"] Channel.JUMPERS = none) := by
  constructor
  · intro l c
    rcases l with _ | ⟨a, _ | ⟨b, t⟩⟩ <;> cases c <;>
      first
        | (left; exact ⟨_, _, rfl, rfl⟩)
        | (right; exact ⟨rfl, rfl⟩)
  · refine ⟨by decide, by decide, by decide, by decide, by decide, by decide,
      by decide, by decide, by decide, by decide⟩

/-! ### Claim C9: the HPA probe and local failure recovery -/

/-- Claim C9 holds: the HPA probe writes "uname -a" plus a carriage
return; the verdict is Pass exactly when the transport returns a response
containing "QNX hpa", and Fail both when the response lacks the signature
(including the empty timeout read) and when the transport errors (None);
and the verification loop processes the remaining channels regardless of
this outcome, one independent classification per item. -/
theorem C9_hpa_probe :
    (∀ (t : String → Option String) (v : String),
      classify_channel t "HPA" (some v) =
        match t ("uname -a" ++ "\r") with
        | none => Verdict.Fail
        | some out =>
          if containsSubstrStr "QNX hpa" out then Verdict.Pass else Verdict.Fail) ∧
    (∀ (ts : String → String → Option String) (v : String)
       (rest : List (String × Option String)),
      run_verification ts (("HPA", some v) :: rest) =
        ("HPA", classify_channel (ts "HPA") "HPA" (some v)) :: run_verification ts rest) := by
  constructor
  · intro t v
    have hv : verify_uart_connection t "HPA" =
        match t ("uname -a" ++ "\r") with
        | none => PyVal.vNone
        | some out =>
          if out.data.isEmpty then PyVal.vStr out
          else PyVal.vBool (containsSubstrStr "QNX hpa" out) := rfl
    show (let status := verify_uart_connection t "HPA"
      if status = PyVal.vStr "NOT_IMPLEMENTED" then Verdict.NotImplemented
      else if pyTruthy status then Verdict.Pass
      else Verdict.Fail) = _
    rw [hv]
    cases h : t ("uname -a" ++ "\r") with
    | none => simp [pyTruthy]
    | some out =>
      dsimp only
      cases he : out.data.isEmpty with
      | true =>
        have hout : out = "" := by
          cases out with
          | mk data => simp only [List.isEmpty_eq_true] at he; rw [he]
        subst hout
        simp [pyTruthy, containsSubstrStr, containsChars, anySuffix, List.isPrefixOf]
      | false =>
        simp only [Bool.false_eq_true, if_false]
        have hne : PyVal.vBool (containsSubstrStr "QNX hpa" out)
            ≠ PyVal.vStr "NOT_IMPLEMENTED" := by
          intro hcontra; cases hcontra
        rw [if_neg hne]
        cases hc : containsSubstrStr "QNX hpa" out <;> simp [pyTruthy, hc]
  · intro ts v rest
    rfl

/-! ### Claim C10: the assignment invariant -/

/-- Claim C10 is false on the code: the hub identifier extracted from the
location "No|:1.0" is "No|", so the generated single-hub HPA pattern is
the alternation ".*No|:1\.2", whose first alternative ".*No" matches the
str-rendering "None" of an absent location — re.match succeeds on it,
and the location-less port (device "b") is assigned to HPA, which the
claim says can never happen. -/
theorem C10_counterexample :
    c10ports.getLast? = some ⟨"b", none, 1027, 24593⟩ ∧
    regexOf false c10ports Channel.HPA = some (mkPat "No|" 2) ∧
    pyReMatch (mkPat "No|" 2) (pyStrOpt none) = true ∧
    (map_vcu_ports false c10ports).get Channel.HPA = some "b" :=
  ⟨by decide, by decide, by decide, by decide⟩

/-- Claim C10 amended: every field of the produced VCUPort is either null
or the device path of some input port whose str-rendered location — an
absent location rendering as the text "None" — matches the pattern of the
field.  The rendering of an absent location can itself match a degenerate
pattern (for example one built from a hub identifier containing a
vertical bar), so a location-less port can be assigned. -/
theorem C10_amended (w : Bool) (ports : List ListPortInfo) (c : Channel) :
    (map_vcu_ports w ports).get c = none ∨
    (∃ p pat, p ∈ ports ∧ regexOf w ports c = some pat ∧
      pyReMatch pat (pyStrOpt p.location) = true ∧
      (map_vcu_ports w ports).get c = some p.device) := by
  rw [map_vcu_ports_get]
  cases hr : regexOf w ports c with
  | none => left; rfl
  | some pat =>
    cases hl : lastMatchDevice (fun p => pyReMatch pat (pyStrOpt p.location)) ports with
    | none => left; exact hl
    | some d =>
      right
      obtain ⟨p, hp, hf, hd⟩ := lastMatchDevice_mem hl
      refine ⟨p, pat, hp, rfl, hf, ?_⟩
      show lastMatchDevice (fun p => pyReMatch pat (pyStrOpt p.location)) ports
        = some p.device
      rw [hl, hd]
